import Mathlib

/-
Verification development for the fastly/pubsub broker engine.

Shallow embedding conventions:
  - Machine integers (u8, u16, u32, u64) are modelled as Nat with explicit
    bounds and explicit % where overflow matters.
  - Byte strings are List Nat with entries below 256; Rust str values are
    the lists of their UTF-8 bytes.
  - Durations and timestamps are Nat values counted in milliseconds.
  - Fallible code returns Option or Except; external effects (KV store
    responses, token validation, randomness) are passed in as explicit
    oracle arguments.
-/

deriving instance DecidableEq for Except

namespace PubSubSpec

/-! Version ids, from src/events.rs (Version::as_id, Version::parse) and
    src/mqtthandler.rs (Version::to_id). Both sites format the id with
    the Rust template width 16 and hex conversion and no fill flag, which
    pads with spaces on the left. -/

namespace Events

structure Version where
  generation : Nat
  seq : Nat
deriving DecidableEq, Repr

/-- Lowercase hex digits of n, as produced by the Rust x conversion. -/
def hexChars (n : Nat) : List Char := Nat.toDigits 16 n

/-- Right-align in a 16-wide field, filling with spaces (format width 16,
    no zero flag). -/
def padLeft16 (cs : List Char) : List Char :=
  List.replicate (16 - cs.length) ' ' ++ cs

/-- Version::as_id, the template applied to (generation, seq). -/
def Version.as_id (v : Version) : String :=
  ⟨padLeft16 (hexChars v.generation) ++ '-' :: Nat.toDigits 10 v.seq⟩

/-- Split a character list at the first dash, mirroring s.find with a dash
    and the two slices taken around it. -/
def splitAtDash : List Char → Option (List Char × List Char)
  | [] => none
  | c :: rest =>
      if c = '-' then some ([], rest)
      else match splitAtDash rest with
        | some (a, b) => some (c :: a, b)
        | none => none

def hexDigitVal (c : Char) : Option Nat :=
  if '0' ≤ c ∧ c ≤ '9' then some (c.toNat - '0'.toNat)
  else if 'a' ≤ c ∧ c ≤ 'f' then some (c.toNat - 'a'.toNat + 10)
  else if 'A' ≤ c ∧ c ≤ 'F' then some (c.toNat - 'A'.toNat + 10)
  else none

def decDigitVal (c : Char) : Option Nat :=
  if '0' ≤ c ∧ c ≤ '9' then some (c.toNat - '0'.toNat) else none

def parseDigitsAux (digitVal : Char → Option Nat) (base : Nat) :
    List Char → Nat → Option Nat
  | [], acc => some acc
  | c :: rest, acc =>
      match digitVal c with
      | some d =>
          -- u64 parsing fails on overflow
          if acc * base + d < 18446744073709551616 then
            parseDigitsAux digitVal base rest (acc * base + d)
          else none
      | none => none

/-- Digit-string parsing as done by u64::from_str_radix and str::parse for
    u64: an optional leading plus sign, then at least one digit of the
    radix; any other character or overflow is an error. -/
def parseRadix (digitVal : Char → Option Nat) (base : Nat) (cs : List Char) :
    Option Nat :=
  let cs := match cs with
    | '+' :: rest => rest
    | cs => cs
  match cs with
  | [] => none
  | _ => parseDigitsAux digitVal base cs 0

/-- Version::parse from src/events.rs. -/
def Version.parse (s : String) : Option Version :=
  match splitAtDash s.data with
  | none => none
  | some (g, rest) =>
      match parseRadix hexDigitVal 16 g with
      | none => none
      | some generation =>
          match parseRadix decDigitVal 10 rest with
          | none => none
          | some seq => some ⟨generation, seq⟩

def isLowerHexDigit (c : Char) : Bool :=
  ('0' ≤ c ∧ c ≤ '9') ∨ ('a' ≤ c ∧ c ≤ 'f')

def isDecDigit (c : Char) : Bool := '0' ≤ c ∧ c ≤ '9'

/-- Whether a string matches the anchored regex of one to sixteen lowercase
    hex digits, a dash, and one or more decimal digits. -/
def matchesIdRegex (s : String) : Bool :=
  match splitAtDash s.data with
  | none => false
  | some (g, rest) =>
      g ≠ [] ∧ g.length ≤ 16 ∧ g.all isLowerHexDigit ∧
      rest ≠ [] ∧ rest.all isDecDigit

/-! Topic gate of the open-mode GET /events handler, src/events.rs get.
    Topics come from repeated topic query parameters and are collected
    into a HashMap, which collapses duplicates. -/

def TOPICS_PER_REQUEST_MAX : Nat := 10

/-- Distinct values of the repeated topic query parameters, in the role of
    the HashMap key set built by the handler. -/
def dedupTopics (ts : List String) : List String :=
  ts.foldl (fun acc t => if t ∈ acc then acc else acc ++ [t]) []

/-- The open-mode topic checks of get: an empty topic set is a missing
    parameter error, and a set at or above TOPICS_PER_REQUEST_MAX is
    rejected with the too-many-topics stream error. Returns the error
    text, or none when the request passes both checks. -/
def openTopicsError (queryTopics : List String) : Option String :=
  let topics := dedupTopics queryTopics
  if topics = [] then some "Missing 'topic' parameter"
  else if TOPICS_PER_REQUEST_MAX ≤ topics.length then some "Too many topics"
  else none

end Events

/-! MQTT v5 packet codec, from src/mqttpacket.rs. Bytes are Nat values
    below 256; bit masking on a byte b is written with division and
    remainder: b AND 0x7f is b % 128, b AND 0x80 nonzero is
    b / 128 % 2 = 1, b SHR 4 is b / 16, and so on. -/

namespace Mqtt

/-- Decoding loop of the variable byte integer (parse_int): pos counts the
    bytes consumed so far, acc the accumulated value. An empty list is a
    truncated input (None in the source); a fifth continuation byte is
    InvalidData. -/
def parseIntAux : List Nat → Nat → Nat → Option (Except Unit (Nat × Nat))
  | [], _, _ => none
  | b :: rest, pos, acc =>
      if 4 ≤ pos then some (.error ()) else
      let acc := acc + b % 128 * 128 ^ pos
      if b / 128 % 2 = 1 then parseIntAux rest (pos + 1) acc
      else some (.ok (acc, pos + 1))

/-- parse_int from src/mqttpacket.rs. -/
def parseInt (src : List Nat) : Option (Except Unit (Nat × Nat)) :=
  parseIntAux src 0 0

/-- Loop of write_int: emit the low seven bits, set the continuation bit
    while the shifted residue is nonzero, repeat on the residue. The fuel
    argument only makes the recursion structural: the residue shrinks by a
    factor of 128 each step, so any fuel above the value is never
    exhausted and the zero-fuel arm is unreachable. -/
def writeIntAux : Nat → Nat → List Nat
  | 0, value => [value % 128]
  | fuel + 1, value =>
      if 0 < value / 128 then (value % 128 + 128) :: writeIntAux fuel (value / 128)
      else [value % 128]

/-- write_int from src/mqttpacket.rs: emit at least one byte; set the
    continuation bit while the residue is nonzero. -/
def writeInt (value : Nat) : List Nat := writeIntAux (value + 1) value

/-- parse_binary: a two-byte big-endian length prefix followed by that many
    content bytes. -/
def parseBinary (src : List Nat) : Except Unit (List Nat × Nat) :=
  match src with
  | b0 :: b1 :: rest =>
      let len := b0 * 256 + b1
      if rest.length < len then .error ()
      else .ok (rest.take len, 2 + len)
  | _ => .error ()

def utf8Cont (b : Nat) : Bool := 128 ≤ b ∧ b < 192

/-- UTF-8 validity of a byte list, the check performed by str::from_utf8. -/
def isValidUtf8 : List Nat → Bool
  | [] => true
  | b :: rest =>
      if b < 128 then isValidUtf8 rest
      else if b < 194 then false
      else if b ≤ 223 then
        match rest with
        | b1 :: r => utf8Cont b1 && isValidUtf8 r
        | [] => false
      else if b = 224 then
        match rest with
        | b1 :: b2 :: r => (160 ≤ b1 ∧ b1 < 192 : Bool) && utf8Cont b2 && isValidUtf8 r
        | _ => false
      else if b ≤ 236 then
        match rest with
        | b1 :: b2 :: r => utf8Cont b1 && utf8Cont b2 && isValidUtf8 r
        | _ => false
      else if b = 237 then
        match rest with
        | b1 :: b2 :: r => (128 ≤ b1 ∧ b1 < 160 : Bool) && utf8Cont b2 && isValidUtf8 r
        | _ => false
      else if b ≤ 239 then
        match rest with
        | b1 :: b2 :: r => utf8Cont b1 && utf8Cont b2 && isValidUtf8 r
        | _ => false
      else if b = 240 then
        match rest with
        | b1 :: b2 :: b3 :: r =>
            (144 ≤ b1 ∧ b1 < 192 : Bool) && utf8Cont b2 && utf8Cont b3 && isValidUtf8 r
        | _ => false
      else if b ≤ 243 then
        match rest with
        | b1 :: b2 :: b3 :: r => utf8Cont b1 && utf8Cont b2 && utf8Cont b3 && isValidUtf8 r
        | _ => false
      else if b = 244 then
        match rest with
        | b1 :: b2 :: b3 :: r =>
            (128 ≤ b1 ∧ b1 < 144 : Bool) && utf8Cont b2 && utf8Cont b3 && isValidUtf8 r
        | _ => false
      else false

/-- parse_string: a binary field whose content must additionally be valid
    UTF-8. The decoded string is represented by its byte list. -/
def parseString (src : List Nat) : Except Unit (List Nat × Nat) :=
  match parseBinary src with
  | .error e => .error e
  | .ok (data, read) =>
      if isValidUtf8 data then .ok (data, read) else .error ()

inductive Reason where
  | success
  | noSubscriptionExisted
  | unspecifiedError
  | protocolError
  | unsupportedProtocolVersion
  | notAuthorized
  | qoSNotSupported
  | wildcardSubscriptionsNotSupported
deriving DecidableEq, Repr

def Reason.toByte : Reason → Nat
  | .success => 0x00
  | .noSubscriptionExisted => 0x11
  | .unspecifiedError => 0x80
  | .protocolError => 0x82
  | .unsupportedProtocolVersion => 0x84
  | .notAuthorized => 0x87
  | .qoSNotSupported => 0x9b
  | .wildcardSubscriptionsNotSupported => 0xa2

/-- TryFrom of u8 for Reason. -/
def Reason.ofByte (b : Nat) : Option Reason :=
  if b = 0x00 then some .success
  else if b = 0x11 then some .noSubscriptionExisted
  else if b = 0x80 then some .unspecifiedError
  else if b = 0x82 then some .protocolError
  else if b = 0x84 then some .unsupportedProtocolVersion
  else if b = 0x87 then some .notAuthorized
  else if b = 0x9b then some .qoSNotSupported
  else if b = 0xa2 then some .wildcardSubscriptionsNotSupported
  else none

structure Connect where
  version : Nat
  client_id : List Nat
  password : Option (List Nat)
deriving DecidableEq, Repr

structure ConnAck where
  reason : Reason
  maximum_packet_size : Option Nat
deriving DecidableEq, Repr

structure ConnAckV4 where
  ret : Nat
deriving DecidableEq, Repr

structure Disconnect where
  reason : Reason
deriving DecidableEq, Repr

structure Subscribe where
  id : Nat
  topic : List Nat
  maximum_qos : Nat
  no_local : Bool
  retain_as_published : Bool
  retain_handling : Nat
deriving DecidableEq, Repr

structure SubAck where
  id : Nat
  reason : Reason
deriving DecidableEq, Repr

structure Unsubscribe where
  id : Nat
  topic : List Nat
deriving DecidableEq, Repr

structure UnsubAck where
  id : Nat
  reason : Reason
deriving DecidableEq, Repr

structure Publish where
  topic : List Nat
  message : List Nat
  dup : Bool
  qos : Nat
  retain : Bool
  message_expiry_interval : Option Nat
deriving DecidableEq, Repr

inductive Packet where
  | connect (p : Connect)
  | connAck (p : ConnAck)
  | connAckV4 (p : ConnAckV4)
  | disconnect (p : Disconnect)
  | pingReq
  | pingResp
  | subscribe (p : Subscribe)
  | subAck (p : SubAck)
  | unsubscribe (p : Unsubscribe)
  | unsubAck (p : UnsubAck)
  | publish (p : Publish)
  | unsupported (ptype : Nat)
deriving DecidableEq, Repr

def u16beVal (b0 b1 : Nat) : Nat := b0 * 256 + b1

def u32beVal (b0 b1 b2 b3 : Nat) : Nat :=
  b0 * 16777216 + b1 * 65536 + b2 * 256 + b3

/-- u16::to_be_bytes. -/
def u16beBytes (n : Nat) : List Nat := [n / 256 % 256, n % 256]

/-- u32::to_be_bytes. -/
def u32beBytes (n : Nat) : List Nat :=
  [n / 16777216 % 256, n / 65536 % 256, n / 256 % 256, n % 256]

/-- The PUBLISH property loop: psrc is the property block; each recognized
    id skips or records its payload; an unknown id is InvalidData. Returns
    the message_expiry_interval recorded by property id 0x02, if any. The
    fuel argument only makes the recursion structural: every iteration
    consumes at least the property id byte, so a fuel equal to the block
    length is never exhausted and the zero-fuel arm is unreachable. -/
def parsePublishPropsAux : Nat → List Nat → Option Nat → Except Unit (Option Nat)
  | _, [], mei => .ok mei
  | 0, _ :: _, _ => .error ()
  | fuel + 1, b :: rest, mei =>
      if b = 0x01 then
        -- payload format: skip one byte (requires length at least two)
        match rest with
        | _ :: r => parsePublishPropsAux fuel r mei
        | [] => .error ()
      else if b = 0x02 then
        -- message expiry interval: u32 big endian
        match rest with
        | x0 :: x1 :: x2 :: x3 :: r =>
            parsePublishPropsAux fuel r (some (u32beVal x0 x1 x2 x3))
        | _ => .error ()
      else if b = 0x23 then
        -- topic alias: skip two bytes
        match rest with
        | _ :: _ :: r => parsePublishPropsAux fuel r mei
        | _ => .error ()
      else if b = 0x08 then
        -- response topic: skip a string
        match parseString rest with
        | .ok (_, read) => parsePublishPropsAux fuel (rest.drop read) mei
        | .error e => .error e
      else if b = 0x09 then
        -- correlation data: skip a binary field
        match parseBinary rest with
        | .ok (_, read) => parsePublishPropsAux fuel (rest.drop read) mei
        | .error e => .error e
      else if b = 0x26 then
        -- user property: skip two strings
        match parseString rest with
        | .ok (_, read) =>
            match parseString (rest.drop read) with
            | .ok (_, read2) =>
                parsePublishPropsAux fuel ((rest.drop read).drop read2) mei
            | .error e => .error e
        | .error e => .error e
      else if b = 0x0b then
        -- subscription identifier: skip a varint
        match parseInt rest with
        | some (.ok (_, read)) => parsePublishPropsAux fuel (rest.drop read) mei
        | some (.error e) => .error e
        | none => .error ()
      else if b = 0x03 then
        -- content type: skip a string
        match parseString rest with
        | .ok (_, read) => parsePublishPropsAux fuel (rest.drop read) mei
        | .error e => .error e
      else .error ()

/-- The PUBLISH property loop entered with fuel equal to the block
    length. -/
def parsePublishProps (psrc : List Nat) (mei : Option Nat) : Except Unit (Option Nat) :=
  parsePublishPropsAux psrc.length psrc mei

/-- The will, username and password sections of CONNECT parsing, taken
    from the v5 arm of Packet::parse. skipConnectWill consumes the will
    properties, topic and payload when the will flag (bit 2) is set. -/
def skipConnectWill (cflags : Nat) (src : List Nat) : Except Unit (List Nat) :=
  if cflags / 4 % 2 = 1 then
    match parseInt src with
    | some (.ok (willPropsLen, read)) =>
        let src := src.drop read
        if src.length < willPropsLen then .error ()
        else
          let src := src.drop willPropsLen
          match parseString src with
          | .ok (_, read) =>
              let src := src.drop read
              match parseBinary src with
              | .ok (_, read) => .ok (src.drop read)
              | .error e => .error e
          | .error e => .error e
    | some (.error e) => .error e
    | none => .error ()
  else .ok src

/-- The username section of CONNECT parsing: skipped when flag bit 7 is
    set. -/
def skipConnectUsername (cflags : Nat) (src : List Nat) : Except Unit (List Nat) :=
  if cflags / 128 % 2 = 1 then
    match parseString src with
    | .ok (_, read) => .ok (src.drop read)
    | .error e => .error e
  else .ok src

/-- The password section of CONNECT parsing: read when flag bit 6 is set. -/
def readConnectPassword (cflags : Nat) (src : List Nat) :
    Except Unit (Option (List Nat)) :=
  if cflags / 64 % 2 = 1 then
    match parseString src with
    | .ok (s, _) => .ok (some s)
    | .error e => .error e
  else .ok none

/-- The UTF-8 bytes of the protocol name MQTT. -/
def mqttName : List Nat := [77, 81, 84, 84]

/-- The CONNECT arm of Packet::parse, applied to the bytes after the
    remaining-length field. -/
def parseConnectBody (src : List Nat) (packetSize : Nat) :
    Option (Except Unit (Packet × Nat)) :=
  match parseString src with
  | .error e => some (.error e)
  | .ok (name, read) =>
    let src := src.drop read
    match src with
    | [] => some (.error ())
    | version :: src1 =>
      if name ≠ mqttName then some (.error ()) else
      if version ≠ 5 then
        -- treat as limited packet with version number only
        some (.ok (.connect ⟨version, [], none⟩, packetSize))
      else
        -- connect flags and keep-alive
        if src1.length < 3 then some (.error ()) else
        let cflags := src1.headD 0
        let src2 := src1.drop 3
        match parseInt src2 with
        | none => some (.error ())
        | some (.error e) => some (.error e)
        | some (.ok (propsLen, read)) =>
          let src3 := src2.drop read
          if src3.length < propsLen then some (.error ()) else
          let src4 := src3.drop propsLen
          match parseString src4 with
          | .error e => some (.error e)
          | .ok (clientId, read2) =>
            let src5 := src4.drop read2
            match skipConnectWill cflags src5 with
            | .error e => some (.error e)
            | .ok src6 =>
              match skipConnectUsername cflags src6 with
              | .error e => some (.error e)
              | .ok src7 =>
                match readConnectPassword cflags src7 with
                | .error e => some (.error e)
                | .ok password =>
                  some (.ok (.connect ⟨5, clientId, password⟩, packetSize))

/-- The PUBLISH arm of Packet::parse. -/
def parsePublishBody (flags : Nat) (src : List Nat) (packetSize : Nat) :
    Option (Except Unit (Packet × Nat)) :=
  let retain := flags % 2 != 0
  let qos := flags / 2 % 4
  let dup := flags / 8 % 2 != 0
  match parseString src with
  | .error e => some (.error e)
  | .ok (topic, read) =>
    let src1 := src.drop read
    match parseInt src1 with
    | none => some (.error ())
    | some (.error e) => some (.error e)
    | some (.ok (propsLen, read1)) =>
      let src2 := src1.drop read1
      if src2.length < propsLen then some (.error ()) else
      match parsePublishProps (src2.take propsLen) none with
      | .error e => some (.error e)
      | .ok mei =>
        let message := src2.drop propsLen
        some (.ok (.publish ⟨topic, message, dup, qos, retain, mei⟩, packetSize))

/-- The SUBSCRIBE arm of Packet::parse; the wire spec requires flags equal
    to 2. -/
def parseSubscribeBody (flags : Nat) (src : List Nat) (packetSize : Nat) :
    Option (Except Unit (Packet × Nat)) :=
  if flags ≠ 2 then some (.error ()) else
  match src with
  | i0 :: i1 :: src1 =>
    let id := u16beVal i0 i1
    match parseInt src1 with
    | none => some (.error ())
    | some (.error e) => some (.error e)
    | some (.ok (propsLen, read)) =>
      let src2 := src1.drop read
      if src2.length < propsLen then some (.error ()) else
      let src3 := src2.drop propsLen
      match parseString src3 with
      | .error e => some (.error e)
      | .ok (topic, read2) =>
        let src4 := src3.drop read2
        match src4 with
        | [] => some (.error ())
        | opts :: _ =>
          some (.ok (.subscribe
            ⟨id, topic, opts % 4, opts / 4 % 2 != 0, opts / 8 % 2 != 0,
              opts / 16 % 4⟩, packetSize))
  | _ => some (.error ())

/-- The UNSUBSCRIBE arm of Packet::parse. -/
def parseUnsubscribeBody (src : List Nat) (packetSize : Nat) :
    Option (Except Unit (Packet × Nat)) :=
  match src with
  | i0 :: i1 :: src1 =>
    let id := u16beVal i0 i1
    match parseInt src1 with
    | none => some (.error ())
    | some (.error e) => some (.error e)
    | some (.ok (propsLen, read)) =>
      let src2 := src1.drop read
      if src2.length < propsLen then some (.error ()) else
      let src3 := src2.drop propsLen
      match parseString src3 with
      | .error e => some (.error e)
      | .ok (topic, _) => some (.ok (.unsubscribe ⟨id, topic⟩, packetSize))
  | _ => some (.error ())

/-- The DISCONNECT arm of Packet::parse. The source first reads a varint
    from the payload and only then takes the head byte as the reason
    code. -/
def parseDisconnectBody (src : List Nat) (packetSize : Nat) :
    Option (Except Unit (Packet × Nat)) :=
  match parseInt src with
  | none => some (.error ())
  | some (.error e) => some (.error e)
  | some (.ok (vheaderLen, read)) =>
    let src1 := src.drop read
    if src1.length < vheaderLen then some (.error ()) else
    let reasonByte := match src1 with
      | [] => 0
      | b :: _ => b
    some (.ok (.disconnect ⟨(Reason.ofByte reasonByte).getD .unspecifiedError⟩,
      packetSize))

/-- Packet::parse. Returns none on truncation, an error value on malformed
    data, or the packet together with the number of bytes consumed. -/
def Packet.parse (src : List Nat) : Option (Except Unit (Packet × Nat)) :=
  if src.length < 2 then none else
  match src with
  | [] => none
  | b0 :: rest =>
    let ptype := b0 / 16
    let flags := b0 % 16
    match parseInt rest with
    | none => none
    | some (.error e) => some (.error e)
    | some (.ok (len, lenRead)) =>
      let src := rest.drop lenRead
      if src.length < len then none else
      let packetSize := 1 + lenRead + len
      if ptype = 1 then parseConnectBody src packetSize
      else if ptype = 3 then parsePublishBody flags src packetSize
      else if ptype = 8 then parseSubscribeBody flags src packetSize
      else if ptype = 10 then parseUnsubscribeBody src packetSize
      else if ptype = 12 then some (.ok (.pingReq, packetSize))
      else if ptype = 14 then parseDisconnectBody src packetSize
      else some (.ok (.unsupported ptype, packetSize))

/-- Packet::serialize. The source panics on the request-side variants; that
    case is modelled as none. In the flags byte of CONNACK and PUBLISH the
    source writes 0x20 OR flags and 0x30 OR flags with flags below 16,
    rendered here as addition. -/
def Packet.serialize : Packet → Option (List Nat)
  | .connAck p =>
      let props := [0x24, 0x00, 0x25, 0x01] ++
        (match p.maximum_packet_size with
          | some x => 0x27 :: u32beBytes x
          | none => []) ++
        [0x28, 0x00, 0x2a, 0x00]
      let propsWithLen := writeInt props.length ++ props
      some (0x20 :: writeInt (propsWithLen.length + 2) ++
        0x00 :: p.reason.toByte :: propsWithLen)
  | .connAckV4 p => some (0x20 :: writeInt 2 ++ [0x00, p.ret])
  | .pingResp => some (0xd0 :: writeInt 0)
  | .subAck p =>
      some (0x90 :: writeInt 4 ++ u16beBytes p.id ++ writeInt 0 ++ [p.reason.toByte])
  | .unsubAck p =>
      -- the source also emits type byte 0x90 here
      some (0x90 :: writeInt 4 ++ u16beBytes p.id ++ writeInt 0 ++ [p.reason.toByte])
  | .publish p =>
      let props := match p.message_expiry_interval with
        | some x => 0x02 :: u32beBytes x
        | none => []
      let propsWithLen := writeInt props.length ++ props
      let flags := (if p.retain then 1 else 0) + p.qos % 4 * 2 + (if p.dup then 8 else 0)
      let len := 2 + p.topic.length + propsWithLen.length + p.message.length
      some ((48 + flags) :: writeInt len ++ u16beBytes p.topic.length ++ p.topic ++
        propsWithLen ++ p.message)
  | .disconnect p => some (0xe0 :: writeInt 1 ++ [p.reason.toByte])
  | _ => none

end Mqtt

/-! Retained storage, from src/storage.rs. The KV store content at one key
    r:topic is modelled as an optional entry holding the payload bytes and
    the parsed metadata JSON. Timestamps and durations are Nat
    milliseconds. The KV generation token only gates the CAS insert and is
    abstracted into the insert outcome supplied by the oracle. -/

namespace Storage

def WRITE_TRIES_MAX : Nat := 5

/-- LINGER, one day, in milliseconds. -/
def LINGER : Nat := 60 * 60 * 24 * 1000

structure RetainedVersion where
  generation : Nat
  seq : Nat
deriving DecidableEq, Repr

structure RetainedMessage where
  ttl : Option Nat
  data : List Nat
deriving DecidableEq, Repr

structure RetainedSlot where
  version : RetainedVersion
  message : Option RetainedMessage
deriving DecidableEq, Repr

/-- The metadata JSON object attached to the key. -/
structure Metadata where
  generation : Nat
  seq : Nat
  expiresAt : Option Nat
deriving DecidableEq, Repr

structure KvEntry where
  value : List Nat
  meta : Metadata
deriving DecidableEq, Repr

/-- The store content at one retained key. -/
abbrev KvState := Option KvEntry

inductive KVStoreError where
  | itemNotFound
  | itemPreconditionFailed
  | tooManyRequests
  | other
deriving DecidableEq, Repr

inductive StorageError where
  | storeNotFound
  | tooManyRequests
  | invalidMetadata
  | kvStore (e : KVStoreError)
deriving DecidableEq, Repr

/-- read_retained, given the store content and the current time. Store
    lookup and metadata deserialization are assumed to succeed; the
    ItemNotFound case is the none state. -/
def readRetained (st : KvState) (now : Nat) (after : Option RetainedVersion) :
    Except StorageError (Option RetainedSlot) :=
  match st with
  | none => .ok none
  | some entry =>
      let meta := entry.meta
      let filtered : Bool := match after with
        | some a => meta.generation = a.generation ∧ meta.seq ≤ a.seq
        | none => false
      if filtered then .ok none
      else
        let version : RetainedVersion := ⟨meta.generation, meta.seq⟩
        let ttl := meta.expiresAt.map (fun expiresAt =>
          if now < expiresAt then expiresAt - now else 0)
        let message := if ttl ≠ some 0 then some ⟨ttl, entry.value⟩ else none
        .ok (some ⟨version, message⟩)

/-- Result of one insert attempt of the CAS loop. -/
inductive InsertResult where
  | ok
  | preconditionFailed
  | tooManyRequests
  | fail (e : KVStoreError)
deriving DecidableEq, Repr

/-- The store responses consumed by one iteration of the write_retained
    loop: what the lookup returned (the parsed metadata, or none for an
    absent key, or a lookup-level error), the random u64 minted for a
    fresh generation, and how the insert ended. -/
structure WriteAttempt where
  lookup : Except StorageError (Option Metadata)
  mint : Nat
  insert : InsertResult

/-- The CAS loop of write_retained. expiresAt is now plus the requested
    ttl, when a ttl was given; it is stored in the metadata of every
    attempt. Returns none when the attempt oracle is exhausted, which the
    bounded loop never needs beyond WRITE_TRIES_MAX entries. -/
def writeRetainedLoop (expiresAt : Option Nat) :
    List WriteAttempt → Nat → Option (Except StorageError RetainedVersion)
  | [], _ => none
  | a :: rest, tries =>
      match a.lookup with
      | .error e => some (.error e)
      | .ok look =>
          let meta : Metadata := match look with
            | some m => ⟨m.generation, m.seq + 1, expiresAt⟩
            | none => ⟨a.mint, 1, expiresAt⟩
          match a.insert with
          | .ok => some (.ok ⟨meta.generation, meta.seq⟩)
          | .preconditionFailed =>
              if WRITE_TRIES_MAX ≤ tries + 1 then some (.error .tooManyRequests)
              else writeRetainedLoop expiresAt rest (tries + 1)
          | .tooManyRequests =>
              if WRITE_TRIES_MAX ≤ tries + 1 then some (.error .tooManyRequests)
              else writeRetainedLoop expiresAt rest (tries + 1)
          | .fail e => some (.error (.kvStore e))

/-- write_retained with the attempt oracle, tries starting at zero. -/
def writeRetained (expiresAt : Option Nat) (attempts : List WriteAttempt) :
    Option (Except StorageError RetainedVersion) :=
  writeRetainedLoop expiresAt attempts 0

/-- The uncontended success path of write_retained applied to the store
    state: the lookup observes the state, the conditional (or create-only)
    insert succeeds on the first try. mint is the random u64 used when the
    key is absent. Returns the new state and the returned version. -/
def writeStep (st : KvState) (value : List Nat) (mint : Nat)
    (expiresAt : Option Nat) : KvState × RetainedVersion :=
  match st with
  | some entry =>
      let meta : Metadata := ⟨entry.meta.generation, entry.meta.seq + 1, expiresAt⟩
      (some ⟨value, meta⟩, ⟨meta.generation, meta.seq⟩)
  | none =>
      let meta : Metadata := ⟨mint, 1, expiresAt⟩
      (some ⟨value, meta⟩, ⟨meta.generation, meta.seq⟩)

/-- Lexicographic order on (generation, seq), the order the spec claims
    for the versions observed by a resuming reader. -/
def RetainedVersion.lexLt (a b : RetainedVersion) : Prop :=
  a.generation < b.generation ∨ (a.generation = b.generation ∧ a.seq < b.seq)

instance (a b : RetainedVersion) : Decidable (a.lexLt b) := by
  unfold RetainedVersion.lexLt
  infer_instance

/-- Modelled from the spec wording of claim C5: the slot returned by a
    read that passes the after filter. The ttl is max(0, expires_at minus
    now), realized by truncated Nat subtraction, and absent when
    expires_at is absent; the message is suppressed exactly when the
    computed ttl is zero. -/
def retainedSlotSpec (entry : KvEntry) (now : Nat) : RetainedSlot :=
  let ttl := entry.meta.expiresAt.map (fun expiresAt => expiresAt - now)
  ⟨⟨entry.meta.generation, entry.meta.seq⟩,
    if ttl = some 0 then none else some ⟨ttl, entry.value⟩⟩

/-- Modelled from the spec wording of claim C5: Ok none on a missing key;
    Ok none when after is supplied and the stored metadata has the same
    generation and a seq at or below the after seq; otherwise the slot of
    retainedSlotSpec. -/
def readRetainedSpec (st : KvState) (now : Nat) (after : Option RetainedVersion) :
    Except StorageError (Option RetainedSlot) :=
  match st, after with
  | none, _ => .ok none
  | some entry, some a =>
      if entry.meta.generation = a.generation ∧ entry.meta.seq ≤ a.seq then .ok none
      else .ok (some (retainedSlotSpec entry now))
  | some entry, none => .ok (some (retainedSlotSpec entry now))

/-- An attempt whose lookup succeeded and whose insert failed with
    precondition-failed or throttling: the only outcomes the write loop
    retries on. -/
def retryableAttempt (a : WriteAttempt) : Prop :=
  (∃ look, a.lookup = .ok look) ∧
  (a.insert = .preconditionFailed ∨ a.insert = .tooManyRequests)

end Storage

/-! MQTT session handler, from src/mqtthandler.rs. External collaborators
    (token validation, storage, the publish client) enter as oracle
    arguments; the handler result records the emitted packets, the
    disconnect flag, the mutated state, and the external calls it issued. -/

namespace Handler

open Storage Mqtt

def PACKET_SIZE_MAX : Nat := 32768

/-- MESSAGE_SIZE_MAX from src/publish.rs: 32768 minus 256 bytes of
    protocol overhead. -/
def MESSAGE_SIZE_MAX : Nat := 32768 - 256

structure Version where
  generation : Nat
  seq : Nat
deriving DecidableEq, Repr

/-- Version::to_id from src/mqtthandler.rs, the same width-16 hex template
    as Version::as_id in src/events.rs. -/
def Version.to_id (v : Version) : String :=
  ⟨Events.padLeft16 (Events.hexChars v.generation) ++ '-' :: Nat.toDigits 10 v.seq⟩

structure Last where
  version : Option Version
deriving DecidableEq, Repr

structure Subscription where
  no_local : Bool
  retain_as_published : Bool
  last : Option Last
  ignore : List Version
deriving DecidableEq, Repr

/-- Session state. The subs HashMap is an association list keyed by the
    topic bytes, with HashMap-style insert, remove and get. -/
structure State where
  connected : Bool
  client_id : List Nat
  token : Option (List Nat)
  subs : List (List Nat × Subscription)
deriving DecidableEq, Repr

def subsGet (subs : List (List Nat × Subscription)) (topic : List Nat) :
    Option Subscription :=
  (subs.find? (fun e => e.1 = topic)).map (·.2)

def subsInsert (subs : List (List Nat × Subscription)) (topic : List Nat)
    (sub : Subscription) : List (List Nat × Subscription) :=
  (subs.filter (fun e => ¬(e.1 = topic))) ++ [(topic, sub)]

def subsRemove (subs : List (List Nat × Subscription)) (topic : List Nat) :
    List (List Nat × Subscription) :=
  subs.filter (fun e => ¬(e.1 = topic))

inductive AuthorizationError where
  | token
  | storeNotFound
  | storeError
  | keyNotFound
deriving DecidableEq, Repr

/-- Capabilities from src/auth.rs. -/
structure Capabilities where
  admin : Bool
  read : List (List Nat)
  write : List (List Nat)
deriving DecidableEq, Repr

def Capabilities.can_subscribe (caps : Capabilities) (topic : List Nat) : Bool :=
  if caps.admin then true else caps.read.contains topic

def Capabilities.can_publish (caps : Capabilities) (topic : List Nat) : Bool :=
  if caps.admin then true else caps.write.contains topic

/-- The token validation oracle, standing for
    ctx.auth.app_token.validate_token. -/
abbrev Validator := List Nat → Except AuthorizationError Capabilities

/-- Sequencing from src/publish.rs. -/
structure Sequencing where
  id : String
  prev_id : String
deriving DecidableEq, Repr

/-- Duration::as_secs of a millisecond duration, cast to u32. -/
def asSecsU32 (millis : Nat) : Nat := millis / 1000 % 4294967296

/-- Result of handle_connect, handle_subscribe or handle_unsubscribe:
    emitted packets, the disconnect flag, the state. -/
structure HandleResult where
  out : List Packet
  disconnect : Bool
  state : State
deriving DecidableEq, Repr

/-- Result of handle_publish: additionally records the storage writes
    (topic, message, ttl in milliseconds) and the external publish calls
    (topic, message, sequencing, sender) that were issued. -/
structure PublishResult where
  out : List Packet
  disconnect : Bool
  state : State
  storageWrites : List (List Nat × List Nat × Option Nat)
  publishCalls : List (List Nat × List Nat × Option Sequencing × Option (List Nat))
deriving DecidableEq, Repr

/-- handle_connect. -/
def handleConnect (st : State) (disc : Bool) (p : Connect) : HandleResult :=
  if p.version ≠ 5 then
    let out := if 5 < p.version then
        Packet.connAck ⟨.unsupportedProtocolVersion, none⟩
      else
        -- unacceptable protocol version
        Packet.connAckV4 ⟨0x01⟩
    ⟨[out], true, st⟩
  else if st.connected then
    ⟨[.connAck ⟨.protocolError, none⟩], disc, st⟩
  else
    -- mark the session as connected and stash the token
    let token := match p.password with
      | some s => some s
      | none => st.token
    ⟨[.connAck ⟨.success, some PACKET_SIZE_MAX⟩], disc,
      { connected := true, client_id := p.client_id, token := token, subs := st.subs }⟩

/-- The allowed flag computed by handle_subscribe from the session token. -/
def subscribeAllowed (validate : Validator) (st : State) (topic : List Nat) : Bool :=
  match st.token with
  | some s =>
      match validate s with
      | .ok caps => caps.can_subscribe topic
      | .error _ => false
  | none => false

/-- handle_subscribe, with readResult the response of
    storage.read_retained for the topic with no after argument. Wildcard
    detection looks for the ASCII bytes of the hash and plus characters,
    which in valid UTF-8 occur exactly where those characters do. -/
def handleSubscribe (validate : Validator)
    (readResult : Except StorageError (Option RetainedSlot))
    (st : State) (disc : Bool) (p : Subscribe) : HandleResult :=
  if p.topic = [] then
    ⟨[.subAck ⟨p.id, .unspecifiedError⟩], disc, st⟩
  else if p.topic.any (fun b => b = 35 ∨ b = 43) then
    -- reject wildcards, for now
    ⟨[.subAck ⟨p.id, .wildcardSubscriptionsNotSupported⟩], disc, st⟩
  else if ¬subscribeAllowed validate st p.topic then
    ⟨[.subAck ⟨p.id, .notAuthorized⟩], disc, st⟩
  else
    match readResult with
    | .error .storeNotFound | .ok none =>
        let sub : Subscription := ⟨p.no_local, p.retain_as_published, some ⟨none⟩, []⟩
        let st1 := { st with subs := subsInsert st.subs p.topic sub }
        ⟨[.subAck ⟨p.id, .success⟩], disc, st1⟩
    | .error _ =>
        ⟨[.subAck ⟨p.id, .unspecifiedError⟩], disc, st⟩
    | .ok (some r) =>
        let version : Option Version := some ⟨r.version.generation, r.version.seq⟩
        let sub : Subscription := ⟨p.no_local, p.retain_as_published, some ⟨version⟩, []⟩
        let st1 := { st with subs := subsInsert st.subs p.topic sub }
        let extra := if p.retain_handling = 0 then
            match r.message with
            | some message =>
                [Packet.publish ⟨p.topic, message.data, false, 0, true,
                  message.ttl.map asSecsU32⟩]
            | none => []
          else []
        ⟨.subAck ⟨p.id, .success⟩ :: extra, disc, st1⟩

/-- handle_unsubscribe. -/
def handleUnsubscribe (st : State) (disc : Bool) (p : Unsubscribe) : HandleResult :=
  if (subsGet st.subs p.topic).isSome then
    ⟨[.unsubAck ⟨p.id, .success⟩], disc, { st with subs := subsRemove st.subs p.topic }⟩
  else
    ⟨[.unsubAck ⟨p.id, .noSubscriptionExisted⟩], disc, st⟩

/-- The allowed flag computed by handle_publish from the session token. -/
def publishAllowed (validate : Validator) (st : State) (topic : List Nat) : Bool :=
  match st.token with
  | some s =>
      match validate s with
      | .ok caps => caps.can_publish topic
      | .error _ => false
  | none => false

/-- handle_publish. publishToken is config.publish_token; writeResult is
    the response of storage.write_retained, consumed only when the packet
    is retained. A publish failure or storage write failure is logged
    only. The leading dollar sign test looks at the first topic byte,
    which in valid UTF-8 is the first character exactly when ASCII. -/
def handlePublish (publishToken : List Nat) (validate : Validator)
    (writeResult : Except StorageError RetainedVersion)
    (st : State) (disc : Bool) (p : Publish) : PublishResult :=
  if p.topic.head? = some 36 then
    -- do not accept publishes to topics beginning with a dollar sign
    ⟨[], disc, st, [], []⟩
  else if 0 < p.qos then
    -- QoS must be 0
    ⟨[.disconnect ⟨.qoSNotSupported⟩], true, st, [], []⟩
  else if ¬publishAllowed validate st p.topic ∨ MESSAGE_SIZE_MAX < p.message.length then
    ⟨[], disc, st, [], []⟩
  else
    let ttl := p.message_expiry_interval.map (fun x => x * 1000)
    let (version, writes) :=
      if p.retain then
        match writeResult with
        | .ok v => (some v, [(p.topic, p.message, ttl)])
        | .error _ =>
            -- no error response, only log
            (none, [(p.topic, p.message, ttl)])
      else (none, [])
    let seq := version.map (fun v =>
      let prevId := if 1 < v.seq then
          -- version 2 or later implies the slot existed with the same
          -- generation
          Version.to_id ⟨v.generation, v.seq - 1⟩
        else
          -- version 1 implies the slot was empty
          "none"
      Sequencing.mk (Version.to_id ⟨v.generation, v.seq⟩) prevId)
    let ignore := match subsGet st.subs p.topic with
      | some sub => sub.no_local
      | none => false
    if publishToken ≠ [] then
      ⟨[], disc, st, writes, [(p.topic, p.message, seq, some st.client_id)]⟩
    else if seq.isNone && !ignore then
      -- publishing not configured, echo back to sender
      ⟨[.publish ⟨p.topic, p.message, false, 0, false, none⟩], disc, st, writes, []⟩
    else
      ⟨[], disc, st, writes, []⟩

end Handler

/-! Theorems for the claims. -/

/-- C1: the claim says as_id / to_id produce the zero-padded 16-digit
    lowercase hex generation, a dash, and the decimal seq, that
    Version.parse inverts as_id for arbitrary pairs, and that the text
    matches the regex of 1 to 16 lowercase hex digits, a dash and decimal
    digits. The code formats with width 16 and no zero flag, so the
    generation is space-padded: at generation 1, seq 1 the id carries 15
    leading spaces, Version.parse rejects it, and the regex fails. -/
theorem c1_version_id_is_space_padded_and_breaks_roundtrip :
    Events.Version.as_id ⟨1, 1⟩ = "               1-1" ∧
    Events.Version.parse (Events.Version.as_id ⟨1, 1⟩) = none ∧
    Events.matchesIdRegex (Events.Version.as_id ⟨1, 1⟩) = false ∧
    Handler.Version.to_id ⟨1, 1⟩ = "               1-1" := by
  decide

/-- C2 counterexample: the claim says up to 10 distinct topics are
    accepted and only more than 10 are rejected; the code rejects a
    request with exactly 10 distinct topics. -/
theorem c2_counterexample_ten_topics_rejected :
    (Events.dedupTopics
      ["t0", "t1", "t2", "t3", "t4", "t5", "t6", "t7", "t8", "t9"]).length = 10 ∧
    Events.openTopicsError
      ["t0", "t1", "t2", "t3", "t4", "t5", "t6", "t7", "t8", "t9"]
      = some "Too many topics" := by
  decide

/-- C2 amended: an open-mode request with between 1 and 9 distinct topics
    passes the topic checks; a request with 10 or more distinct topics is
    rejected with the too-many-topics stream error. -/
theorem c2_topic_limit_is_nine (ts : List String) :
    (1 ≤ (Events.dedupTopics ts).length → (Events.dedupTopics ts).length ≤ 9 →
      Events.openTopicsError ts = none) ∧
    (10 ≤ (Events.dedupTopics ts).length →
      Events.openTopicsError ts = some "Too many topics") := by
  unfold Events.openTopicsError Events.TOPICS_PER_REQUEST_MAX
  constructor
  · intro h1 h9
    have hne : Events.dedupTopics ts ≠ [] := by
      intro h
      rw [h] at h1
      simp at h1
    simp only [if_neg hne]
    rw [if_neg (by omega)]
  · intro h10
    have hne : Events.dedupTopics ts ≠ [] := by
      intro h
      rw [h] at h10
      simp at h10
    simp only [if_neg hne]
    rw [if_pos (by omega)]

/-- C2 witness: one topic is accepted. -/
theorem c2_topic_limit_is_nine_witness :
    Events.openTopicsError ["fruit"] = none :=
  (c2_topic_limit_is_nine ["fruit"]).1 (by decide) (by decide)

/-- C4 counterexample: the claim says the versions observed by a reader
    that passes its last-observed version as after are strictly increasing
    in (generation, seq) lexicographic order even across slot deletion and
    re-creation under a new random generation. Write generation 5 seq 1,
    observe it, delete the key, re-create under random generation 3: the
    reader observes (3, 1) after (5, 1), which is lexicographically
    smaller. -/
theorem c4_counterexample_generation_reset_breaks_lex_order :
    Storage.writeStep none [97] 5 none
      = (some ⟨[97], ⟨5, 1, none⟩⟩, ⟨5, 1⟩) ∧
    Storage.readRetained (some ⟨[97], ⟨5, 1, none⟩⟩) 0 none
      = .ok (some ⟨⟨5, 1⟩, some ⟨none, [97]⟩⟩) ∧
    Storage.writeStep none [98] 3 none
      = (some ⟨[98], ⟨3, 1, none⟩⟩, ⟨3, 1⟩) ∧
    Storage.readRetained (some ⟨[98], ⟨3, 1, none⟩⟩) 0 (some ⟨5, 1⟩)
      = .ok (some ⟨⟨3, 1⟩, some ⟨none, [98]⟩⟩) ∧
    ¬Storage.RetainedVersion.lexLt ⟨5, 1⟩ ⟨3, 1⟩ := by
  refine ⟨rfl, rfl, rfl, rfl, ?_⟩
  decide

/-- C4 amended: the observed versions are strictly increasing within a
    generation: whenever a read with after returns a slot, the returned
    version has a different generation or a strictly larger seq; and a
    successful write over an existing slot returns the stored generation
    with seq incremented, so a single-generation slot lifetime yields a
    strictly increasing seq series. Across a generation change no
    lexicographic ordering is guaranteed. -/
theorem c4_observed_versions_increase_within_generation :
    (∀ (st : Storage.KvState) (now : Nat) (after : Storage.RetainedVersion)
        (slot : Storage.RetainedSlot),
      Storage.readRetained st now (some after) = .ok (some slot) →
      slot.version.generation ≠ after.generation ∨ after.seq < slot.version.seq) ∧
    (∀ (entry : Storage.KvEntry) (value : List Nat) (mint : Nat)
        (expiresAt : Option Nat),
      (Storage.writeStep (some entry) value mint expiresAt).2
        = ⟨entry.meta.generation, entry.meta.seq + 1⟩) := by
  constructor
  · intro st now after slot h
    cases st with
    | none => simp [Storage.readRetained] at h
    | some entry =>
      simp only [Storage.readRetained] at h
      by_cases hc : entry.meta.generation = after.generation ∧
          entry.meta.seq ≤ after.seq
      · rw [if_pos (by simpa using hc)] at h
        simp at h
      · rw [if_neg (by simpa using hc)] at h
        simp only [Except.ok.injEq, Option.some.injEq] at h
        have hv : slot.version = ⟨entry.meta.generation, entry.meta.seq⟩ := by
          rw [← h]
        rw [hv]
        show entry.meta.generation ≠ after.generation ∨ after.seq < entry.meta.seq
        omega
  · intro entry value mint expiresAt
    rfl

/-- C4 witness: a slot at generation 9 seq 4 read with after (9, 2)
    yields a version with a strictly larger seq. -/
theorem c4_observed_versions_increase_within_generation_witness :
    (⟨⟨9, 4⟩, some ⟨none, [97]⟩⟩ : Storage.RetainedSlot).version.generation ≠ 9 ∨
    (2 : Nat) < (⟨⟨9, 4⟩, some ⟨none, [97]⟩⟩ : Storage.RetainedSlot).version.seq :=
  c4_observed_versions_increase_within_generation.1
    (some ⟨[97], ⟨9, 4, none⟩⟩) 0 ⟨9, 2⟩ ⟨⟨9, 4⟩, some ⟨none, [97]⟩⟩ (by rfl)

/-- C5: read_retained returns Ok none when the key is missing, Ok none
    when after is supplied and the stored metadata has the same generation
    and a seq at or below the after seq, and otherwise the stored
    (generation, seq) with ttl max(0, expires_at minus now) (absent
    expires_at gives no ttl) and the message suppressed exactly when the
    computed ttl is zero: the function equals the spec-side description on
    every store state, time and after argument. -/
theorem ttl_clamp_eq (now : Nat) (o : Option Nat) :
    o.map (fun e => if now < e then e - now else 0) = o.map (fun e => e - now) := by
  cases o with
  | none => rfl
  | some e =>
    simp only [Option.map_some']
    have : (if now < e then e - now else 0) = e - now := by
      split <;> omega
    rw [this]

theorem c5_read_retained_matches_spec (st : Storage.KvState) (now : Nat)
    (after : Option Storage.RetainedVersion) :
    Storage.readRetained st now after = Storage.readRetainedSpec st now after := by
  cases st with
  | none => cases after <;> rfl
  | some entry =>
    cases after with
    | none =>
      simp only [Storage.readRetained, Storage.readRetainedSpec,
        Storage.retainedSlotSpec]
      rw [ttl_clamp_eq]
      simp only [ne_eq, ite_not]
      simp
    | some a =>
      simp only [Storage.readRetained, Storage.readRetainedSpec,
        Storage.retainedSlotSpec]
      by_cases hc : entry.meta.generation = a.generation ∧ entry.meta.seq ≤ a.seq
      · rw [if_pos (by simpa using hc), if_pos hc]
      · rw [if_neg (by simpa using hc), if_neg hc]
        rw [ttl_clamp_eq]
        simp only [ne_eq, ite_not]

/-- C10: handle_publish never mutates the session state: for every
    configuration, validation oracle, storage response, starting state,
    disconnect flag and Publish input, the state after the call (its
    connected flag, client id, token, and whole subs map including last
    versions and ignore lists) equals the starting state. -/
theorem c10_handle_publish_preserves_state (publishToken : List Nat)
    (validate : Handler.Validator)
    (writeResult : Except Storage.StorageError Storage.RetainedVersion)
    (st : Handler.State) (disc : Bool) (p : Mqtt.Publish) :
    (Handler.handlePublish publishToken validate writeResult st disc p).state = st := by
  unfold Handler.handlePublish
  repeat' split
  all_goals simp
  all_goals split
  all_goals simp

theorem writeLoop_retry_step (exp : Option Nat) (a : Storage.WriteAttempt)
    (rest : List Storage.WriteAttempt) (tries : Nat)
    (ha : Storage.retryableAttempt a) (ht : tries + 1 < 5) :
    Storage.writeRetainedLoop exp (a :: rest) tries
      = Storage.writeRetainedLoop exp rest (tries + 1) := by
  obtain ⟨⟨look, hl⟩, hi⟩ := ha
  conv_lhs => unfold Storage.writeRetainedLoop
  simp only [hl]
  rcases hi with h | h <;> simp only [h] <;>
    simp only [Storage.WRITE_TRIES_MAX] <;> rw [if_neg (by omega)]

theorem writeLoop_retry_last (exp : Option Nat) (a : Storage.WriteAttempt)
    (rest : List Storage.WriteAttempt) (tries : Nat)
    (ha : Storage.retryableAttempt a) (ht : 5 ≤ tries + 1) :
    Storage.writeRetainedLoop exp (a :: rest) tries
      = some (.error .tooManyRequests) := by
  obtain ⟨⟨look, hl⟩, hi⟩ := ha
  conv_lhs => unfold Storage.writeRetainedLoop
  simp only [hl]
  rcases hi with h | h <;> simp only [h] <;>
    simp only [Storage.WRITE_TRIES_MAX] <;> rw [if_pos (by omega)]

theorem writeLoop_take (exp : Option Nat) :
    ∀ (l : List Storage.WriteAttempt) (tries : Nat), tries < 5 →
      Storage.writeRetainedLoop exp l tries
        = Storage.writeRetainedLoop exp (l.take (5 - tries)) tries := by
  intro l
  induction l with
  | nil => intro tries ht; simp
  | cons a rest ih =>
    intro tries ht
    have h5 : 5 - tries = (4 - tries) + 1 := by omega
    rw [h5, List.take_succ_cons]
    unfold Storage.writeRetainedLoop
    cases hl : a.lookup with
    | error e => rfl
    | ok look =>
      cases hi : a.insert with
      | ok => rfl
      | fail e => rfl
      | preconditionFailed =>
        simp only [Storage.WRITE_TRIES_MAX]
        by_cases hb : 5 ≤ tries + 1
        · rw [if_pos hb, if_pos hb]
        · rw [if_neg hb, if_neg hb]
          have h4 : 4 - tries = 5 - (tries + 1) := by omega
          rw [h4]
          exact ih (tries + 1) (by omega)
      | tooManyRequests =>
        simp only [Storage.WRITE_TRIES_MAX]
        by_cases hb : 5 ≤ tries + 1
        · rw [if_pos hb, if_pos hb]
        · rw [if_neg hb, if_neg hb]
          have h4 : 4 - tries = 5 - (tries + 1) := by omega
          rw [h4]
          exact ih (tries + 1) (by omega)

/-- C6: the write CAS loop re-reads the slot each attempt; on a successful
    conditional replace over an existing slot it returns the stored
    generation with seq incremented by exactly one, and on a successful
    create-only insert it returns the freshly minted generation with seq
    one. Any insert failure other than precondition-failed or throttling
    aborts immediately with that error; the loop consumes at most five
    attempts, and five consecutive retryable failures return
    TooManyRequests. -/
theorem c6_write_retained_cas_loop :
    (∀ (exp : Option Nat) (m : Storage.Metadata) (mint : Nat)
        (rest : List Storage.WriteAttempt),
      Storage.writeRetained exp (⟨.ok (some m), mint, .ok⟩ :: rest)
        = some (.ok ⟨m.generation, m.seq + 1⟩)) ∧
    (∀ (exp : Option Nat) (mint : Nat) (rest : List Storage.WriteAttempt),
      Storage.writeRetained exp (⟨.ok none, mint, .ok⟩ :: rest)
        = some (.ok ⟨mint, 1⟩)) ∧
    (∀ (exp : Option Nat) (look : Option Storage.Metadata) (mint : Nat)
        (e : Storage.KVStoreError) (rest : List Storage.WriteAttempt),
      Storage.writeRetained exp (⟨.ok look, mint, .fail e⟩ :: rest)
        = some (.error (.kvStore e))) ∧
    (∀ (exp : Option Nat) (a1 a2 a3 a4 a5 : Storage.WriteAttempt)
        (rest : List Storage.WriteAttempt),
      Storage.retryableAttempt a1 → Storage.retryableAttempt a2 →
      Storage.retryableAttempt a3 → Storage.retryableAttempt a4 →
      Storage.retryableAttempt a5 →
      Storage.writeRetained exp (a1 :: a2 :: a3 :: a4 :: a5 :: rest)
        = some (.error .tooManyRequests)) ∧
    (∀ (exp : Option Nat) (l : List Storage.WriteAttempt),
      Storage.writeRetained exp l = Storage.writeRetained exp (l.take 5)) := by
  refine ⟨fun _ _ _ _ => rfl, fun _ _ _ => rfl, ?_, ?_, ?_⟩
  · intro exp look mint e rest
    cases look <;> rfl
  · intro exp a1 a2 a3 a4 a5 rest h1 h2 h3 h4 h5
    unfold Storage.writeRetained
    rw [writeLoop_retry_step exp a1 _ 0 h1 (by omega),
      writeLoop_retry_step exp a2 _ 1 h2 (by omega),
      writeLoop_retry_step exp a3 _ 2 h3 (by omega),
      writeLoop_retry_step exp a4 _ 3 h4 (by omega),
      writeLoop_retry_last exp a5 _ 4 h5 (by omega)]
  · intro exp l
    exact writeLoop_take exp l 0 (by omega)

/-- C6 witness: five consecutive precondition-failed attempts yield
    TooManyRequests. -/
theorem c6_write_retained_cas_loop_witness :
    Storage.writeRetained none
      [⟨.ok none, 0, .preconditionFailed⟩, ⟨.ok none, 0, .preconditionFailed⟩,
        ⟨.ok none, 0, .preconditionFailed⟩, ⟨.ok none, 0, .preconditionFailed⟩,
        ⟨.ok none, 0, .preconditionFailed⟩]
      = some (.error .tooManyRequests) :=
  c6_write_retained_cas_loop.2.2.2.1 none _ _ _ _ _ []
    ⟨⟨none, rfl⟩, Or.inl rfl⟩ ⟨⟨none, rfl⟩, Or.inl rfl⟩ ⟨⟨none, rfl⟩, Or.inl rfl⟩
    ⟨⟨none, rfl⟩, Or.inl rfl⟩ ⟨⟨none, rfl⟩, Or.inl rfl⟩

/-- C9 counterexample: the claim says a successful v5 CONNECT sets the
    token from the packet password field; on a CONNECT without a password
    the handler keeps the prior token instead of clearing it. -/
theorem c9_counterexample_connect_without_password_keeps_token :
    (Handler.handleConnect ⟨false, [], some [120], []⟩ false ⟨5, [99], none⟩).state
      = ⟨true, [99], some [120], []⟩ ∧
    (Mqtt.Connect.mk 5 [99] none).password = none := by
  decide

/-- C9 amended: a CONNECT with version above 5 yields
    CONNACK(UnsupportedProtocolVersion) with the disconnect flag set; a
    version below 5 yields the v4 CONNACK with return code 1 and the
    disconnect flag set; a v5 CONNECT on an already connected state yields
    CONNACK(ProtocolError) with state and flag unchanged; otherwise the
    state becomes connected with client_id from the packet, the token is
    set from the packet password when present and kept unchanged when the
    packet has none, and the handler emits CONNACK(Success) advertising a
    maximum packet size of 32768. -/
theorem c9_connect_behavior (st : Handler.State) (disc : Bool) (p : Mqtt.Connect) :
    (5 < p.version →
      Handler.handleConnect st disc p
        = ⟨[.connAck ⟨.unsupportedProtocolVersion, none⟩], true, st⟩) ∧
    (p.version < 5 →
      Handler.handleConnect st disc p = ⟨[.connAckV4 ⟨1⟩], true, st⟩) ∧
    (p.version = 5 → st.connected = true →
      Handler.handleConnect st disc p
        = ⟨[.connAck ⟨.protocolError, none⟩], disc, st⟩) ∧
    (p.version = 5 → st.connected = false →
      Handler.handleConnect st disc p
        = ⟨[.connAck ⟨.success, some 32768⟩], disc,
            ⟨true, p.client_id,
              (match p.password with
                | some s => some s
                | none => st.token), st.subs⟩⟩) := by
  refine ⟨?_, ?_, ?_, ?_⟩
  · intro h
    unfold Handler.handleConnect
    rw [if_pos (by omega : p.version ≠ 5), if_pos h]
  · intro h
    unfold Handler.handleConnect
    rw [if_pos (by omega : p.version ≠ 5), if_neg (by omega : ¬5 < p.version)]
  · intro h hc
    unfold Handler.handleConnect
    rw [if_neg (by omega : ¬p.version ≠ 5), if_pos hc]
  · intro h hc
    unfold Handler.handleConnect
    rw [if_neg (by omega : ¬p.version ≠ 5), if_neg (by simp [hc])]
    rfl

/-- C9 witness: a CONNECT with version 6 is rejected with
    CONNACK(UnsupportedProtocolVersion) and the disconnect flag set. -/
theorem c9_connect_behavior_witness :
    Handler.handleConnect ⟨false, [], none, []⟩ false ⟨6, [], none⟩
      = ⟨[.connAck ⟨.unsupportedProtocolVersion, none⟩], true,
          ⟨false, [], none, []⟩⟩ :=
  (c9_connect_behavior ⟨false, [], none, []⟩ false ⟨6, [], none⟩).1 (by decide)

/-- C7: handle_publish drops a packet silently (no output, no storage
    write, no publish call, disconnect unchanged) when the topic starts
    with the dollar byte; otherwise replies DISCONNECT(QoSNotSupported)
    and sets the disconnect flag when qos is positive; otherwise drops it
    silently when authorization is denied or the payload exceeds
    MESSAGE_SIZE_MAX = 32768 - 256 = 32512 bytes; and any call that
    reaches storage or the publish client carries a payload of at most
    32512 bytes. -/
theorem c7_handle_publish_guards (publishToken : List Nat)
    (validate : Handler.Validator)
    (writeResult : Except Storage.StorageError Storage.RetainedVersion)
    (st : Handler.State) (disc : Bool) (p : Mqtt.Publish) :
    (p.topic.head? = some 36 →
      Handler.handlePublish publishToken validate writeResult st disc p
        = ⟨[], disc, st, [], []⟩) ∧
    (p.topic.head? ≠ some 36 → 0 < p.qos →
      Handler.handlePublish publishToken validate writeResult st disc p
        = ⟨[.disconnect ⟨.qoSNotSupported⟩], true, st, [], []⟩) ∧
    (p.topic.head? ≠ some 36 → p.qos = 0 →
      (Handler.publishAllowed validate st p.topic = false ∨
        Handler.MESSAGE_SIZE_MAX < p.message.length) →
      Handler.handlePublish publishToken validate writeResult st disc p
        = ⟨[], disc, st, [], []⟩) ∧
    ((Handler.handlePublish publishToken validate writeResult st disc p).storageWrites
        ≠ [] ∨
      (Handler.handlePublish publishToken validate writeResult st disc p).publishCalls
        ≠ [] →
      p.message.length ≤ Handler.MESSAGE_SIZE_MAX) ∧
    Handler.MESSAGE_SIZE_MAX = 32512 := by
  refine ⟨?_, ?_, ?_, ?_, rfl⟩
  · intro h
    unfold Handler.handlePublish
    rw [if_pos h]
  · intro h1 h2
    unfold Handler.handlePublish
    rw [if_neg h1, if_pos h2]
  · intro h1 h2 h3
    unfold Handler.handlePublish
    rw [if_neg h1, if_neg (by omega), if_pos ?hcond]
    case hcond =>
      rcases h3 with h | h
      · exact Or.inl (by simp [h])
      · exact Or.inr h
  · intro h
    by_cases h1 : p.topic.head? = some 36
    · unfold Handler.handlePublish at h
      rw [if_pos h1] at h
      simp at h
    · by_cases h2 : 0 < p.qos
      · unfold Handler.handlePublish at h
        rw [if_neg h1, if_pos h2] at h
        simp at h
      · by_cases h3 : ¬Handler.publishAllowed validate st p.topic = true ∨
            Handler.MESSAGE_SIZE_MAX < p.message.length
        · unfold Handler.handlePublish at h
          rw [if_neg h1, if_neg h2, if_pos h3] at h
          simp at h
        · rcases not_or.mp h3 with ⟨_, hl⟩
          omega

/-- C7 witness: a publish to a dollar-prefixed topic is dropped silently. -/
theorem c7_handle_publish_guards_witness :
    Handler.handlePublish [] (fun _ => .error .token) (.error .storeNotFound)
      ⟨false, [], none, []⟩ false ⟨[36], [], false, 0, false, none⟩
      = ⟨[], false, ⟨false, [], none, []⟩, [], []⟩ :=
  (c7_handle_publish_guards [] (fun _ => .error .token) (.error .storeNotFound)
    ⟨false, [], none, []⟩ false ⟨[36], [], false, 0, false, none⟩).1 rfl

/-- C8: handle_subscribe answers an empty topic with
    SUBACK(UnspecifiedError); a topic containing the hash or plus bytes
    with SUBACK(WildcardSubscriptionsNotSupported); a missing or
    non-authorizing session token with SUBACK(NotAuthorized); and
    otherwise, when the retained read succeeds, it records the
    subscription with last.version taken from the retained slot (if any)
    and an empty ignore list, emits SUBACK(Success), and emits an
    additional PUBLISH with retain true and qos 0 carrying the retained
    payload exactly when retain_handling is 0 and a retained payload
    exists, with message_expiry_interval the remaining ttl in whole
    seconds (as u32, the identity for any ttl below 2^32 seconds). -/
theorem c8_handle_subscribe_behavior (validate : Handler.Validator)
    (readResult : Except Storage.StorageError (Option Storage.RetainedSlot))
    (st : Handler.State) (disc : Bool) (p : Mqtt.Subscribe)
    (r : Option Storage.RetainedSlot) :
    (p.topic = [] →
      Handler.handleSubscribe validate readResult st disc p
        = ⟨[.subAck ⟨p.id, .unspecifiedError⟩], disc, st⟩) ∧
    (p.topic ≠ [] → p.topic.any (fun b => b = 35 ∨ b = 43) = true →
      Handler.handleSubscribe validate readResult st disc p
        = ⟨[.subAck ⟨p.id, .wildcardSubscriptionsNotSupported⟩], disc, st⟩) ∧
    (p.topic ≠ [] → p.topic.any (fun b => b = 35 ∨ b = 43) = false →
      Handler.subscribeAllowed validate st p.topic = false →
      Handler.handleSubscribe validate readResult st disc p
        = ⟨[.subAck ⟨p.id, .notAuthorized⟩], disc, st⟩) ∧
    (p.topic ≠ [] → p.topic.any (fun b => b = 35 ∨ b = 43) = false →
      Handler.subscribeAllowed validate st p.topic = true →
      readResult = .ok r →
      Handler.handleSubscribe validate readResult st disc p
        = ⟨.subAck ⟨p.id, .success⟩ ::
            (match (if p.retain_handling = 0 then r.bind (fun s => s.message)
                else none) with
              | some m => [.publish ⟨p.topic, m.data, false, 0, true,
                  m.ttl.map Handler.asSecsU32⟩]
              | none => []),
            disc,
            { st with subs := (Handler.subsInsert st.subs p.topic
                ⟨p.no_local, p.retain_as_published,
                  some ⟨r.map (fun s => ⟨s.version.generation, s.version.seq⟩)⟩,
                  []⟩) }⟩) ∧
    (∀ d : Nat, d < 4294967296000 → Handler.asSecsU32 d = d / 1000) := by
  refine ⟨?_, ?_, ?_, ?_, ?_⟩
  · intro h
    unfold Handler.handleSubscribe
    rw [if_pos h]
  · intro h1 h2
    unfold Handler.handleSubscribe
    rw [if_neg h1, if_pos h2]
  · intro h1 h2 h3
    unfold Handler.handleSubscribe
    rw [if_neg h1, if_neg (by rw [h2]; simp), if_pos (by rw [h3]; simp)]
  · intro h1 h2 h3 h4
    unfold Handler.handleSubscribe
    rw [if_neg h1, if_neg (by rw [h2]; simp), if_neg (by rw [h3]; simp), h4]
    cases r with
    | none => by_cases hr : p.retain_handling = 0 <;> simp [hr]
    | some slot =>
      by_cases hr : p.retain_handling = 0
      · cases hm : slot.message <;> simp [hr, hm]
      · simp [hr]
  · intro d hd
    unfold Handler.asSecsU32
    omega

/-- C8 witness: an empty topic is answered with SUBACK(UnspecifiedError). -/
theorem c8_handle_subscribe_behavior_witness :
    Handler.handleSubscribe (fun _ => .error .token) (.ok none)
      ⟨false, [], none, []⟩ false ⟨7, [], 0, false, false, 0⟩
      = ⟨[.subAck ⟨7, .unspecifiedError⟩], false, ⟨false, [], none, []⟩⟩ :=
  (c8_handle_subscribe_behavior (fun _ => .error .token) (.ok none)
    ⟨false, [], none, []⟩ false ⟨7, [], 0, false, false, 0⟩ none).1 rfl

namespace Mqtt

theorem writeIntAux_length_pos (fuel value : Nat) : 0 < (writeIntAux fuel value).length := by
  cases fuel with
  | zero => simp [writeIntAux]
  | succ f =>
    unfold writeIntAux
    split <;> simp

theorem writeInt_length_pos (value : Nat) : 0 < (writeInt value).length :=
  writeIntAux_length_pos _ _

theorem parseIntAux_writeIntAux (rest : List Nat) :
    ∀ (fuel value pos acc : Nat), value < fuel → pos ≤ 3 → value < 128 ^ (4 - pos) →
      parseIntAux (writeIntAux fuel value ++ rest) pos acc
        = some (.ok (acc + value * 128 ^ pos, pos + (writeIntAux fuel value).length)) := by
  intro fuel
  induction fuel with
  | zero => intro value pos acc hf; omega
  | succ f ih =>
    intro value pos acc hf hpos hval
    unfold writeIntAux
    by_cases h : 0 < value / 128
    · rw [if_pos h]
      have hv128 : 128 ≤ value := by omega
      have hpos2 : pos ≤ 2 := by
        by_contra hcon
        have h3 : pos = 3 := by omega
        subst h3
        norm_num at hval
        omega
      simp only [List.cons_append, List.append_eq, parseIntAux]
      rw [if_neg (by omega : ¬4 ≤ pos)]
      have hc : (value % 128 + 128) / 128 % 2 = 1 := by omega
      rw [if_pos hc]
      have hb : (value % 128 + 128) % 128 = value % 128 := by omega
      rw [hb]
      have hb2 : value / 128 < 128 ^ (4 - (pos + 1)) := by
        have he : 4 - pos = (4 - (pos + 1)) + 1 := by omega
        rw [he, pow_succ] at hval
        exact Nat.div_lt_of_lt_mul (by omega)
      rw [ih (value / 128) (pos + 1) (acc + value % 128 * 128 ^ pos) (by omega)
        (by omega) hb2]
      simp only [List.length_cons, Option.some.injEq, Except.ok.injEq, Prod.mk.injEq]
      constructor
      · have hk : value % 128 + value / 128 * 128 = value := by omega
        calc acc + value % 128 * 128 ^ pos + value / 128 * 128 ^ (pos + 1)
            = acc + (value % 128 + value / 128 * 128) * 128 ^ pos := by
              rw [pow_succ]; ring
          _ = acc + value * 128 ^ pos := by rw [hk]
      · omega
    · rw [if_neg h]
      have hv : value < 128 := by omega
      have hm : value % 128 = value := Nat.mod_eq_of_lt hv
      rw [hm]
      simp only [List.singleton_append, List.append_eq, parseIntAux]
      rw [if_neg (by omega : ¬4 ≤ pos)]
      rw [if_neg (by omega : ¬value / 128 % 2 = 1)]
      simp [hm]

theorem parseInt_writeInt (value : Nat) (rest : List Nat) (h : value < 128 ^ 4) :
    parseInt (writeInt value ++ rest)
      = some (.ok (value, (writeInt value).length)) := by
  have := parseIntAux_writeIntAux rest (value + 1) value 0 0 (by omega) (by omega)
    (by simpa using h)
  simpa [parseInt, writeInt] using this

theorem parseBinary_encoded (l rest : List Nat) (h : l.length < 65536) :
    parseBinary (u16beBytes l.length ++ (l ++ rest)) = .ok (l, 2 + l.length) := by
  simp only [u16beBytes, List.cons_append, List.nil_append, parseBinary]
  have hlen : l.length / 256 % 256 * 256 + l.length % 256 = l.length := by omega
  rw [hlen]
  rw [if_neg (by simp)]
  rw [List.take_left]

theorem parseString_encoded (l rest : List Nat) (h : l.length < 65536)
    (hu : isValidUtf8 l = true) :
    parseString (u16beBytes l.length ++ (l ++ rest)) = .ok (l, 2 + l.length) := by
  unfold parseString
  rw [parseBinary_encoded l rest h]
  simp [hu]

theorem parse_frame (b0 len : Nat) (R : List Nat) (hR : R.length = len)
    (hlen : len < 128 ^ 4) :
    Packet.parse (b0 :: (writeInt len ++ R))
      = (if b0 / 16 = 1 then parseConnectBody R (1 + (writeInt len).length + len)
         else if b0 / 16 = 3 then
           parsePublishBody (b0 % 16) R (1 + (writeInt len).length + len)
         else if b0 / 16 = 8 then
           parseSubscribeBody (b0 % 16) R (1 + (writeInt len).length + len)
         else if b0 / 16 = 10 then
           parseUnsubscribeBody R (1 + (writeInt len).length + len)
         else if b0 / 16 = 12 then
           some (.ok (.pingReq, 1 + (writeInt len).length + len))
         else if b0 / 16 = 14 then
           parseDisconnectBody R (1 + (writeInt len).length + len)
         else some (.ok (.unsupported (b0 / 16), 1 + (writeInt len).length + len))) := by
  have hlp := writeInt_length_pos len
  unfold Packet.parse
  rw [if_neg (by simp only [List.length_cons, List.length_append]; omega)]
  simp only []
  rw [parseInt_writeInt len R hlen]
  simp only [List.drop_left]
  rw [if_neg (by omega)]

theorem parsePublishProps_mei (x : Nat) (hx : x < 4294967296) :
    parsePublishProps (2 :: u32beBytes x) none = .ok (some x) := by
  show (Except.ok (some (u32beVal (x / 16777216 % 256) (x / 65536 % 256)
    (x / 256 % 256) (x % 256))) : Except Unit (Option Nat)) = .ok (some x)
  simp only [u32beVal]
  congr 2
  omega

theorem parsePublishBody_encoded (flags : Nat) (topic props message : List Nat)
    (mei : Option Nat) (packetSize : Nat)
    (hpl : props.length < 128 ^ 4)
    (htl : topic.length < 65536) (hu : isValidUtf8 topic = true)
    (hprops : parsePublishProps props none = .ok mei) :
    parsePublishBody flags
      (u16beBytes topic.length ++ (topic ++ (writeInt props.length ++ (props ++ message))))
      packetSize
      = some (.ok (.publish ⟨topic, message, flags / 8 % 2 != 0, flags / 2 % 4,
          flags % 2 != 0, mei⟩, packetSize)) := by
  unfold parsePublishBody
  rw [parseString_encoded topic _ htl hu]
  dsimp only
  have hd1 : (u16beBytes topic.length ++ (topic ++ (writeInt props.length ++ (props ++ message)))).drop (2 + topic.length)
      = writeInt props.length ++ (props ++ message) := by
    rw [← List.append_assoc]
    have h2 : 2 + topic.length = (u16beBytes topic.length ++ topic).length := by
      simp only [List.length_append, u16beBytes, List.length_cons, List.length_nil]
    rw [h2, List.drop_left]
  rw [hd1]
  rw [parseInt_writeInt _ _ hpl]
  dsimp only
  rw [List.drop_left]
  rw [if_neg (by simp)]
  rw [List.take_left, hprops]
  dsimp only
  rw [List.drop_left]

/-- C3 counterexample: the claim says in particular that a serialized
    UnsubAck parses back as an UnsubAck with the same id and reason; the
    decoder has no arm for type nibble 9 (the byte 0x90 the serializer
    emits for both SUBACK and UNSUBACK), so the bytes parse back as
    Unsupported 9. -/
theorem c3_counterexample_unsuback_reparses_as_unsupported :
    Packet.serialize (.unsubAck ⟨1, .success⟩) = some [144, 4, 0, 1, 0, 0] ∧
    Packet.parse [144, 4, 0, 1, 0, 0]
      = some (.ok (.unsupported 9, 6)) ∧
    Packet.unsupported 9 ≠ Packet.unsubAck ⟨1, .success⟩ := by
  decide

/-- C3 amended: among the serializable variants only Publish survives the
    round trip: for every Publish with qos at most 3, a valid-UTF-8 topic
    shorter than 65536 bytes, a message expiry below 2^32 and a total
    remaining length below 2^28, parse of serialize returns the same
    Publish consuming all bytes. Serialized CONNACK (both forms), PINGRESP,
    SUBACK and UNSUBACK parse back as Unsupported with type nibble 2, 2,
    13, 9 and 9 respectively, and a serialized DISCONNECT re-parses (as
    Disconnect) only when its reason is Success, all other reasons being
    rejected as malformed. -/
theorem c3_parse_serialize_roundtrip :
    (∀ (p : Publish) (bs : List Nat),
      p.qos ≤ 3 →
      isValidUtf8 p.topic = true →
      p.topic.length < 65536 →
      (∀ x, p.message_expiry_interval = some x → x < 4294967296) →
      2 + p.topic.length +
        (match p.message_expiry_interval with | some _ => 6 | none => 1) +
        p.message.length < 128 ^ 4 →
      Packet.serialize (.publish p) = some bs →
      Packet.parse bs = some (.ok (.publish p, bs.length))) ∧
    (∀ r : Reason,
      Packet.serialize (.connAck ⟨r, none⟩)
        = some [32, 11, 0, r.toByte, 8, 36, 0, 37, 1, 40, 0, 42, 0] ∧
      Packet.parse [32, 11, 0, r.toByte, 8, 36, 0, 37, 1, 40, 0, 42, 0]
        = some (.ok (.unsupported 2, 13))) ∧
    (∀ (r : Reason) (x : Nat),
      Packet.serialize (.connAck ⟨r, some x⟩)
        = some [32, 16, 0, r.toByte, 13, 36, 0, 37, 1, 39,
            x / 16777216 % 256, x / 65536 % 256, x / 256 % 256, x % 256,
            40, 0, 42, 0] ∧
      Packet.parse [32, 16, 0, r.toByte, 13, 36, 0, 37, 1, 39,
          x / 16777216 % 256, x / 65536 % 256, x / 256 % 256, x % 256,
          40, 0, 42, 0]
        = some (.ok (.unsupported 2, 18))) ∧
    (∀ ret : Nat,
      Packet.serialize (.connAckV4 ⟨ret⟩) = some [32, 2, 0, ret] ∧
      Packet.parse [32, 2, 0, ret] = some (.ok (.unsupported 2, 4))) ∧
    (Packet.serialize .pingResp = some [208, 0] ∧
      Packet.parse [208, 0] = some (.ok (.unsupported 13, 2))) ∧
    (∀ (id : Nat) (r : Reason),
      Packet.serialize (.subAck ⟨id, r⟩)
        = some [144, 4, id / 256 % 256, id % 256, 0, r.toByte] ∧
      Packet.serialize (.unsubAck ⟨id, r⟩)
        = some [144, 4, id / 256 % 256, id % 256, 0, r.toByte] ∧
      Packet.parse [144, 4, id / 256 % 256, id % 256, 0, r.toByte]
        = some (.ok (.unsupported 9, 6))) ∧
    (∀ r : Reason,
      Packet.serialize (.disconnect ⟨r⟩) = some [224, 1, r.toByte] ∧
      Packet.parse [224, 1, r.toByte]
        = (if r = .success then some (.ok (.disconnect ⟨.success⟩, 3))
           else some (.error ()))) := by
  refine ⟨?_, ?_, ?_, ?_, ⟨rfl, rfl⟩, ?_, ?_⟩
  ·
    intro p bs hq hu htl hx hlen hser
    obtain ⟨topic, message, dup, qos, retain, mei⟩ := p
    simp only at hq hu htl hx hlen
    cases mei with
    | none =>
      dsimp only at hlen
      simp only [Packet.serialize, List.cons_append, List.append_assoc,
        List.length_nil, List.nil_append, List.append_nil] at hser
      rw [Option.some.injEq] at hser
      subst hser
      rw [parse_frame]
      rotate_left
      · -- R.length = len
        simp only [List.length_append, List.length_cons, u16beBytes,
          List.length_nil]
        have h1 : (writeInt 0).length = 1 := rfl
        omega
      · -- len < 128 ^ 4
        have h1 : (writeInt 0).length = 1 := rfl
        omega
      have hF : ((if retain = true then 1 else 0) + qos % 4 * 2 +
          (if dup = true then 8 else 0)) ≤ 15 := by
        cases retain <;> cases dup <;> simp <;> omega
      rw [if_neg (by omega), if_pos (by omega)]
      have hmod : (48 + ((if retain = true then 1 else 0) + qos % 4 * 2 +
          (if dup = true then 8 else 0))) % 16
          = ((if retain = true then 1 else 0) + qos % 4 * 2 +
            (if dup = true then 8 else 0)) := by omega
      rw [hmod]
      have hbody := parsePublishBody_encoded
        ((if retain = true then 1 else 0) + qos % 4 * 2 + (if dup = true then 8 else 0))
        topic [] message none
        (1 + (writeInt (2 + topic.length + (writeInt 0).length + message.length)).length +
          (2 + topic.length + (writeInt 0).length + message.length))
        (by simp) htl hu rfl
      simp only [List.length_nil, List.nil_append] at hbody
      rw [hbody]
      simp only [Option.some.injEq, Except.ok.injEq, Prod.mk.injEq,
        Packet.publish.injEq, Publish.mk.injEq]
      refine ⟨⟨trivial, trivial, ?_, ?_, ?_, trivial⟩, ?_⟩
      · cases retain <;> cases dup <;> simp <;> omega
      · cases retain <;> cases dup <;> simp <;> omega
      · cases retain <;> cases dup <;> simp <;> omega
      · simp only [List.length_cons, List.length_append, u16beBytes,
          List.length_nil]
        omega
    | some x =>
      dsimp only at hlen
      have hxx : x < 4294967296 := hx x rfl
      have h4 : (u32beBytes x).length = 4 := rfl
      simp only [Packet.serialize, List.cons_append, List.append_assoc,
        List.length_cons, List.length_append, List.nil_append,
        List.append_nil] at hser
      simp only [h4] at hser
      rw [Option.some.injEq] at hser
      subst hser
      rw [parse_frame]
      rotate_left
      · simp only [List.length_append, List.length_cons, u16beBytes,
          List.length_nil, h4]
        have h1 : (writeInt (4 + 1)).length = 1 := rfl
        omega
      · have h1 : (writeInt (4 + 1)).length = 1 := rfl
        omega
      have hF : ((if retain = true then 1 else 0) + qos % 4 * 2 +
          (if dup = true then 8 else 0)) ≤ 15 := by
        cases retain <;> cases dup <;> simp <;> omega
      rw [if_neg (by omega), if_pos (by omega)]
      have hmod : (48 + ((if retain = true then 1 else 0) + qos % 4 * 2 +
          (if dup = true then 8 else 0))) % 16
          = ((if retain = true then 1 else 0) + qos % 4 * 2 +
            (if dup = true then 8 else 0)) := by omega
      rw [hmod]
      have hbody := parsePublishBody_encoded
        ((if retain = true then 1 else 0) + qos % 4 * 2 + (if dup = true then 8 else 0))
        topic (2 :: u32beBytes x) message (some x)
        (1 + (writeInt (2 + topic.length + ((writeInt (4 + 1)).length + (4 + 1)) +
            message.length)).length +
          (2 + topic.length + ((writeInt (4 + 1)).length + (4 + 1)) + message.length))
        (by simp [h4]) htl hu (parsePublishProps_mei x hxx)
      simp only [List.length_cons, h4, List.cons_append, List.append_assoc] at hbody
      rw [hbody]
      simp only [Option.some.injEq, Except.ok.injEq, Prod.mk.injEq,
        Packet.publish.injEq, Publish.mk.injEq]
      refine ⟨⟨trivial, trivial, ?_, ?_, ?_, trivial⟩, ?_⟩
      · cases retain <;> cases dup <;> simp <;> omega
      · cases retain <;> cases dup <;> simp <;> omega
      · cases retain <;> cases dup <;> simp <;> omega
      · simp only [List.length_cons, List.length_append, u16beBytes,
          List.length_nil, h4]
        omega
  · intro r
    exact ⟨by cases r <;> rfl, rfl⟩
  · intro r x
    exact ⟨by with_unfolding_all rfl, rfl⟩
  · intro ret
    exact ⟨rfl, rfl⟩
  · intro id r
    exact ⟨rfl, rfl, rfl⟩
  · intro r
    exact ⟨rfl, by cases r <;> rfl⟩

/-- C3 witness: the repo test vector, a minimal Publish of message apple
    on topic fruit, round-trips through 15 bytes. -/
theorem c3_parse_serialize_roundtrip_witness :
    Packet.parse [48, 13, 0, 5, 102, 114, 117, 105, 116, 0, 97, 112, 112, 108, 101]
      = some (.ok (.publish ⟨[102, 114, 117, 105, 116], [97, 112, 112, 108, 101],
          false, 0, false, none⟩, 15)) := by
  have h := c3_parse_serialize_roundtrip.1
    ⟨[102, 114, 117, 105, 116], [97, 112, 112, 108, 101], false, 0, false, none⟩
    [48, 13, 0, 5, 102, 114, 117, 105, 116, 0, 97, 112, 112, 108, 101]
    (by decide) (by decide) (by decide) (by intro x hx; cases hx) (by decide)
    (by decide)
  simpa using h

end Mqtt

end PubSubSpec
